import Mathlib

/-!
Verification of the date/time picker interaction core of the
`shadcn-components` repository.

The development shallowly embeds, in Lean, the pure state-transition
content of:

* `lib/date-time-utils.ts` (`getFormatString`, `parseDateTimeString`,
  `formatDateTime`) together with the observable behaviour of the
  `date-fns` `parse`/`format` functions on the four patterns the
  repository uses (`yyyy-MM-dd HH:mm[:ss]` and `yyyy-MM-dd hh:mm[:ss] a`);
* `hooks/use-date-time-picker.ts` (the single-value controller);
* `hooks/use-date-time-range-picker.ts` (the range controller);
* the drag-to-resize state machine of `date-time-range-picker.tsx`
  (`startDrag`, `updatePreview`, `finishDrag`);
* the duration display of §4.4 of the specification (whose
  implementation file is not part of the provided sources; it is
  modelled from the specification text).

JavaScript `Date` values are modelled as civil date-times at second
granularity (`DateTime` below); the repository never produces non-zero
milliseconds on any of the code paths verified here, and the
specification describes all time handling in terms of hour/minute/second.
Comparisons between `Date`s (`<` on epoch milliseconds) are modelled by
comparing `epochSeconds`.  The `timeZone`-unset configuration is
modelled: `wrapTZ` is then the identity in the source, and timezone
wrapping is declared an out-of-scope collaborator by the specification.
Strings are modelled as `List Char`.
-/

namespace ShadcnDateTime

/-- Civil date-time at second granularity, the model of a JavaScript
`Date` as used by the picker core (year/month/day are 1-based as in the
formatted text; `month` is 1..12, unlike the 0-based `Date.getMonth`). -/
structure DateTime where
  year : Nat
  month : Nat
  day : Nat
  hour : Nat
  minute : Nat
  second : Nat
deriving DecidableEq, Repr

/-- Leap-year test, as in the `date-fns` day-of-month validator. -/
def isLeapYear (y : Nat) : Bool :=
  (y % 4 == 0 && y % 100 != 0) || y % 400 == 0

/-- Number of days in a month, as validated by the `date-fns` parser. -/
def daysInMonth (y m : Nat) : Nat :=
  if m = 2 then (if isLeapYear y then 29 else 28)
  else if m = 4 ∨ m = 6 ∨ m = 9 ∨ m = 11 then 30
  else 31

/-- Days since 1970-01-01 of a civil date (Howard Hinnant's
`days_from_civil` algorithm, the standard civil-calendar linearisation
used to model the epoch arithmetic of JavaScript `Date`). -/
def civilDays (y m d : Int) : Int :=
  let y2 : Int := if m ≤ 2 then y - 1 else y
  let era : Int := (if 0 ≤ y2 then y2 else y2 - 399) / 400
  let yoe : Int := y2 - era * 400
  let mp : Int := if 2 < m then m - 3 else m + 9
  let doy : Int := (153 * mp + 2) / 5 + d - 1
  let doe : Int := yoe * 365 + yoe / 4 - yoe / 100 + doy
  era * 146097 + doe - 719468

/-- Day number of a `DateTime` (its calendar day as a linear count),
depending only on the year/month/day fields. -/
def DateTime.dayNumber (d : DateTime) : Int :=
  civilDays d.year d.month d.day

/-- Seconds within the day. -/
def DateTime.timeOfDaySeconds (d : DateTime) : Int :=
  d.hour * 3600 + d.minute * 60 + d.second

/-- Epoch linearisation of a `DateTime`; JavaScript `Date` comparison
(`<` on epoch milliseconds) is modelled by comparing this value. -/
def DateTime.epochSeconds (d : DateTime) : Int :=
  d.dayNumber * 86400 + d.timeOfDaySeconds

/-- Model of `a < b` on JavaScript `Date`s. -/
def DateTime.lt (a b : DateTime) : Prop :=
  a.epochSeconds < b.epochSeconds

/-- Model of `a <= b` on JavaScript `Date`s. -/
def DateTime.le (a b : DateTime) : Prop :=
  a.epochSeconds ≤ b.epochSeconds

instance (a b : DateTime) : Decidable (a.lt b) := by
  unfold DateTime.lt; infer_instance

instance (a b : DateTime) : Decidable (a.le b) := by
  unfold DateTime.le; infer_instance

/-- Same calendar day, as in `isSameDay` of `date-time-range-picker.tsx`
(compares `getFullYear`, `getMonth` and `getDate`). -/
def isSameDay (a b : DateTime) : Bool :=
  a.year == b.year && a.month == b.month && a.day == b.day

/-- Midnight of the same calendar day, as in `stripTime` of
`date-time-range-picker.tsx` (`setHours(0, 0, 0, 0)` on a copy). -/
def stripTime (d : DateTime) : DateTime :=
  { d with hour := 0, minute := 0, second := 0 }

/-- Bounds satisfied by every `Date` the pickers commit: the fields
describe a real calendar date and a real time of day, and the year fits
the four-digit text format. -/
def DateTime.Valid (d : DateTime) : Prop :=
  1 ≤ d.year ∧ d.year ≤ 9999 ∧
  1 ≤ d.month ∧ d.month ≤ 12 ∧
  1 ≤ d.day ∧ d.day ≤ daysInMonth d.year d.month ∧
  d.hour ≤ 23 ∧ d.minute ≤ 59 ∧ d.second ≤ 59

instance (d : DateTime) : Decidable d.Valid := by
  unfold DateTime.Valid; infer_instance

/-- Time display format, the `"12h" | "24h"` union of the source. -/
inductive TimeFormat where
  | h12 : TimeFormat
  | h24 : TimeFormat
deriving DecidableEq, Repr

/-- Options controlling the date-time string format
(`DateTimeFormatOptions` of `date-time-utils.ts`). -/
structure DateTimeFormatOptions where
  timeFormat : TimeFormat
  showSeconds : Bool
deriving DecidableEq, Repr

/-- Decimal digits of `n`, most significant first, zero-padded to
exactly `k` characters (the output of the `date-fns` numeric formatter
tokens `yyyy`, `MM`, `dd`, `HH`, `hh`, `mm`, `ss`). -/
def padNum : Nat → Nat → List Char
  | 0, _ => []
  | k + 1, n => Char.ofNat (48 + n / 10 ^ k % 10) :: padNum k n

/-- Display hour of the `hh` (1..12) formatter token. -/
def hour12Display (h : Nat) : Nat :=
  if h % 12 = 0 then 12 else h % 12

/-- Day-period text of the `a` formatter token (en-US locale: `AM`/`PM`). -/
def meridiemChars (h : Nat) : List Char :=
  if h < 12 then ['A', 'M'] else ['P', 'M']

/-- Model of `formatDateTime` of `date-time-utils.ts`: `date-fns`
`format` applied to the pattern returned by `getFormatString`
(`yyyy-MM-dd HH:mm[:ss]` for 24h, `yyyy-MM-dd hh:mm[:ss] a` for 12h). -/
def formatDateTime (d : DateTime) (opts : DateTimeFormatOptions) : List Char :=
  let datePart := padNum 4 d.year ++ '-' :: padNum 2 d.month ++ '-' :: padNum 2 d.day
  let secPart := if opts.showSeconds then ':' :: padNum 2 d.second else []
  match opts.timeFormat with
  | .h24 =>
      datePart ++ ' ' :: (padNum 2 d.hour ++ ':' :: padNum 2 d.minute ++ secPart)
  | .h12 =>
      datePart ++ ' ' ::
        (padNum 2 (hour12Display d.hour) ++ ':' :: padNum 2 d.minute ++ secPart
          ++ ' ' :: meridiemChars d.hour)

/-- Greedy reader of at most `k` leading decimal digits (the behaviour
of the `date-fns` `parseNDigits` helper behind the numeric parser
tokens); returns the accumulated value and the unconsumed remainder. -/
def readDigitsAux : Nat → List Char → Nat → Nat × List Char
  | 0, cs, acc => (acc, cs)
  | _ + 1, [], acc => (acc, [])
  | k + 1, c :: cs, acc =>
      if c.isDigit then readDigitsAux k cs (acc * 10 + (c.toNat - 48))
      else (acc, c :: cs)

/-- Numeric parser token: requires at least one digit, consumes at most
`k` digits greedily. -/
def pNum (k : Nat) (cs : List Char) : Option (Nat × List Char) :=
  match cs with
  | [] => none
  | c :: _ => if c.isDigit then some (readDigitsAux k cs 0) else none

/-- Literal-character parser token (the separators `-`, `:` and the
spaces of the format pattern). -/
def pChar (ch : Char) (cs : List Char) : Option (List Char) :=
  match cs with
  | [] => none
  | c :: rest => if c = ch then some rest else none

/-- Day period parsed by the `a` token. -/
inductive Meridiem where
  | am : Meridiem
  | pm : Meridiem
deriving DecidableEq, Repr

/-- Parser of the `a` token: the en-US `AM`/`PM` markers, matched
case-insensitively as by the `date-fns` locale matcher.  (The locale
matcher also accepts spelled-out day periods such as `noon`; those are
outside the format pattern's own grammar and are not modelled.) -/
def pMeridiem (cs : List Char) : Option (Meridiem × List Char) :=
  match cs with
  | a :: m :: rest =>
      if (a = 'A' ∨ a = 'a') ∧ (m = 'M' ∨ m = 'm') then some (.am, rest)
      else if (a = 'P' ∨ a = 'p') ∧ (m = 'M' ∨ m = 'm') then some (.pm, rest)
      else none
  | _ => none

/-- Conversion of a parsed 1..12 hour and day period to the 0..23 hour,
as performed by the `date-fns` `a` and `hh` parser setters. -/
def hourFrom12 (h12 : Nat) (mer : Meridiem) : Nat :=
  match mer with
  | .am => if h12 = 12 then 0 else h12
  | .pm => if h12 = 12 then 12 else h12 + 12

/-- Whitespace test used by string trimming. -/
def isWhitespaceChar (c : Char) : Bool :=
  c == ' ' || c == '\t' || c == '\n' || c == '\r'

/-- Model of `String.prototype.trim` on the characters the pickers
handle. -/
def trimChars (cs : List Char) : List Char :=
  ((cs.dropWhile isWhitespaceChar).reverse.dropWhile isWhitespaceChar).reverse

/-- Core of the `date-fns` `parse` call of `parseDateTimeString`, on an
already-trimmed input: the format pattern is matched token by token
(numeric tokens lenient in width, literals exact), every token value is
validated against its calendar range exactly as by the `date-fns` token
validators (`yyyy` requires a positive year, `dd` is checked against
the month length, `HH` ≤ 23, `hh` in 1..12, `mm`/`ss` ≤ 59), and any
unconsumed remainder invalidates the parse.  Units below the pattern's
smallest token are zeroed by the `date-fns` setters, so the result does
not depend on the reference date. -/
def parseCore (opts : DateTimeFormatOptions) (cs : List Char) : Option DateTime :=
  (pNum 4 cs).bind fun py =>
  (pChar '-' py.2).bind fun cs2 =>
  (pNum 2 cs2).bind fun pmo =>
  (pChar '-' pmo.2).bind fun cs4 =>
  (pNum 2 cs4).bind fun pda =>
  (pChar ' ' pda.2).bind fun cs6 =>
  (pNum 2 cs6).bind fun pht =>
  (pChar ':' pht.2).bind fun cs8 =>
  (pNum 2 cs8).bind fun pmi =>
  (if opts.showSeconds then
     (pChar ':' pmi.2).bind fun cs10 => pNum 2 cs10
   else some (0, pmi.2)).bind fun psec =>
  if 1 ≤ py.1 ∧ 1 ≤ pmo.1 ∧ pmo.1 ≤ 12 ∧ 1 ≤ pda.1 ∧
     pda.1 ≤ daysInMonth py.1 pmo.1 ∧ pmi.1 ≤ 59 ∧ psec.1 ≤ 59 then
    match opts.timeFormat with
    | .h24 =>
        if pht.1 ≤ 23 ∧ psec.2 = [] then
          some ⟨py.1, pmo.1, pda.1, pht.1, pmi.1, psec.1⟩
        else none
    | .h12 =>
        (pChar ' ' psec.2).bind fun cs12 =>
        (pMeridiem cs12).bind fun pmer =>
        if 1 ≤ pht.1 ∧ pht.1 ≤ 12 ∧ pmer.2 = [] then
          some ⟨py.1, pmo.1, pda.1, hourFrom12 pht.1 pmer.1, pmi.1, psec.1⟩
        else none
  else none

/-- Model of `parseDateTimeString` of `date-time-utils.ts`: trim the
input, parse it against the active pattern, return `none` on any
failure.  The `referenceDate` argument mirrors the source signature;
because every pattern contains the full `yyyy-MM-dd` date and the
`date-fns` setters zero all units below the smallest pattern token, the
result never depends on it (the repository's own tests pin this
behaviour, e.g. seconds parse to the string's value or 0, never to the
reference date's). -/
def parseDateTimeString (input : List Char) (opts : DateTimeFormatOptions)
    (referenceDate : DateTime) : Option DateTime :=
  parseCore opts (trimChars input)

/-- Formatted text of a nullable value, as by `formatDate`/`syncInputFromDate`
in both hooks (`d ? formatDateTime(d, formatOptions) : ""`). -/
def formatOpt (opts : DateTimeFormatOptions) : Option DateTime → List Char
  | some d => formatDateTime d opts
  | none => []

namespace SinglePicker

/-- Controller state of `useDateTimePicker` (uncontrolled mode: the hook
owns the authoritative value; in controlled mode the same transitions
run but the committed value is only reported through `onChange`).
Timezone wrapping (`wrapTZ`) is the identity because the modelled
configuration has no `timeZone`. -/
structure State where
  date : Option DateTime
  inputValue : List Char
  isDirty : Bool
  month : DateTime
deriving DecidableEq, Repr

/-- Transition of `setInputValue` (`handleSetInputValue`): store raw
text, mark dirty, no validation and no `onChange`. -/
def setInputValue (val : List Char) (s : State) : State :=
  { s with inputValue := val, isDirty := true }

/-- Transition of `confirmInput` of `use-date-time-picker.ts`.  The
second component is the `onChange` notification (`none` = not called). -/
def confirmInput (opts : DateTimeFormatOptions) (now : DateTime) (s : State) :
    State × Option (Option DateTime) :=
  if s.isDirty = false then (s, none)
  else
    match parseDateTimeString s.inputValue opts now with
    | some parsed =>
        ({ s with date := some parsed, month := parsed,
                  inputValue := formatDateTime parsed opts, isDirty := false },
         some (some parsed))
    | none =>
        ({ s with inputValue := formatOpt opts s.date, isDirty := false }, none)

/-- Transition of `handleCalendarSelect` of `use-date-time-picker.ts`:
clearing resets the value; a day selection copies the previous value's
hour/minute/second onto the selected day when a previous value exists. -/
def handleCalendarSelect (opts : DateTimeFormatOptions)
    (selectedDate : Option DateTime) (s : State) :
    State × Option (Option DateTime) :=
  match selectedDate with
  | none =>
      ({ s with date := none, inputValue := [], isDirty := false }, some none)
  | some sel =>
      let newDate :=
        match s.date with
        | some prev =>
            { sel with hour := prev.hour, minute := prev.minute,
                       second := prev.second }
        | none => sel
      ({ s with date := some newDate,
                inputValue := formatDateTime newDate opts, isDirty := false },
       some (some newDate))

/-- Transition of `handleTimeChange`: the wheel supplies a full
date-time which is committed directly. -/
def handleTimeChange (opts : DateTimeFormatOptions) (newDate : DateTime)
    (s : State) : State × Option (Option DateTime) :=
  ({ s with date := some newDate,
            inputValue := formatDateTime newDate opts, isDirty := false },
   some (some newDate))

end SinglePicker

/-- The `DateTimeRange` interface of `use-date-time-range-picker.ts`
(`from`/`to` both optional). -/
structure DTRange where
  «from» : Option DateTime
  «to» : Option DateTime
deriving DecidableEq, Repr

namespace RangePicker

/-- Controller state of `useDateTimeRangePicker` (uncontrolled mode, no
`timeZone`, as for `SinglePicker.State`).  `lastClickedDay` is the
`lastClickedDayRef` set by `handleDayClick` before `handleCalendarSelect`
runs. -/
structure State where
  range : DTRange
  startInputValue : List Char
  endInputValue : List Char
  isStartDirty : Bool
  isEndDirty : Bool
  month : DateTime
  lastClickedDay : Option DateTime
deriving DecidableEq, Repr

/-- Copy of `preserveTime`: hours, minutes and seconds of `source` onto
`target` (the source mutates `target` via `setHours`; modelled as a
functional update). -/
def preserveTime (target source : DateTime) : DateTime :=
  { target with hour := source.hour, minute := source.minute,
                second := source.second }

/-- Slot-wise time-preserving merge used by `handleCalendarSelect` and
`handleDragEnd` (`if (newX && range.x) preserveTime(newX, range.x)`). -/
def mergeSlot (newVal prev : Option DateTime) : Option DateTime :=
  match newVal, prev with
  | some nd, some pd => some (preserveTime nd pd)
  | some nd, none => some nd
  | none, _ => none

/-- Transition of `confirmStartInput`: parse the start text; on success
commit `{ ...range, from: parsed }` (no cross-field validation); on
failure revert the text to the last committed start value's text. -/
def confirmStartInput (opts : DateTimeFormatOptions) (now : DateTime)
    (s : State) : State × Option DTRange :=
  if s.isStartDirty = false then (s, none)
  else
    match parseDateTimeString s.startInputValue opts now with
    | some parsed =>
        let newRange : DTRange := { s.range with «from» := some parsed }
        ({ s with range := newRange, month := parsed,
                  startInputValue := formatDateTime parsed opts,
                  isStartDirty := false },
         some newRange)
    | none =>
        ({ s with startInputValue := formatOpt opts s.range.«from»,
                  isStartDirty := false }, none)

/-- Guard `range.from && finalDate < range.from` of `confirmEndInput`. -/
def endBeforeStart (parsed : DateTime) : Option DateTime → Bool
  | some f => decide (parsed.lt f)
  | none => false

/-- Transition of `confirmEndInput`: parse the end text; a validly
parsed instant strictly before the current `from` is rejected (end text
reverted, no commit); otherwise commit `{ ...range, to: parsed }`; a
parse failure reverts the end text. -/
def confirmEndInput (opts : DateTimeFormatOptions) (now : DateTime)
    (s : State) : State × Option DTRange :=
  if s.isEndDirty = false then (s, none)
  else
    match parseDateTimeString s.endInputValue opts now with
    | some parsed =>
        if endBeforeStart parsed s.range.«from» then
          ({ s with endInputValue := formatOpt opts s.range.«to»,
                    isEndDirty := false }, none)
        else
          let newRange : DTRange := { s.range with «to» := some parsed }
          ({ s with range := newRange,
                    endInputValue := formatDateTime parsed opts,
                    isEndDirty := false },
           some newRange)
    | none =>
        ({ s with endInputValue := formatOpt opts s.range.«to»,
                  isEndDirty := false }, none)

/-- Transition of `handleDayClick`: record the exact clicked day. -/
def handleDayClick (day : DateTime) (s : State) : State :=
  { s with lastClickedDay := some day }

/-- Transition of `handleCalendarSelect` of
`use-date-time-range-picker.ts`: consume `lastClickedDayRef`; clearing
resets everything; otherwise the 3-click cycle decides the new bounds
(`to` is accepted from the grid only in the selecting-end phase, any
other click starts a fresh `from` at the recorded clicked day) and
pre-existing times are preserved slot-wise. -/
def handleCalendarSelect (opts : DateTimeFormatOptions)
    (dateRange : Option DTRange) (s : State) : State × Option DTRange :=
  let clickedDay := s.lastClickedDay
  match dateRange with
  | none =>
      ({ s with range := ⟨none, none⟩, startInputValue := [],
                endInputValue := [], isStartDirty := false,
                isEndDirty := false, lastClickedDay := none },
       some ⟨none, none⟩)
  | some dr =>
      let isSelectingTo : Bool := s.range.«from».isSome && s.range.«to».isNone
      let newFrom : Option DateTime :=
        if isSelectingTo then dr.«from»
        else match clickedDay with
             | some d => some d
             | none => dr.«from»
      let newTo : Option DateTime := if isSelectingTo then dr.«to» else none
      let finalFrom := mergeSlot newFrom s.range.«from»
      let finalTo := mergeSlot newTo s.range.«to»
      let newRange : DTRange := ⟨finalFrom, finalTo⟩
      ({ s with range := newRange,
                startInputValue := formatOpt opts finalFrom,
                endInputValue := formatOpt opts finalTo,
                isStartDirty := false, isEndDirty := false,
                lastClickedDay := none },
       some newRange)

/-- Transition of `handleStartTimeChange`: commit the wheel's full
date-time as the new `from`, no cross-field validation. -/
def handleStartTimeChange (opts : DateTimeFormatOptions) (newDate : DateTime)
    (s : State) : State × Option DTRange :=
  let newRange : DTRange := { s.range with «from» := some newDate }
  ({ s with range := newRange,
            startInputValue := formatDateTime newDate opts,
            isStartDirty := false },
   some newRange)

/-- Transition of `handleEndTimeChange`: commit the wheel's full
date-time as the new `to`, no cross-field validation. -/
def handleEndTimeChange (opts : DateTimeFormatOptions) (newDate : DateTime)
    (s : State) : State × Option DTRange :=
  let newRange : DTRange := { s.range with «to» := some newDate }
  ({ s with range := newRange,
            endInputValue := formatDateTime newDate opts,
            isEndDirty := false },
   some newRange)

/-- Transition of `handleDragEnd`: copy both bounds of the finished
preview, preserve existing times slot-wise from the current range, and
commit. -/
def handleDragEnd (opts : DateTimeFormatOptions) (newRange : DTRange)
    (s : State) : State × Option DTRange :=
  let finalFrom := mergeSlot newRange.«from» s.range.«from»
  let finalTo := mergeSlot newRange.«to» s.range.«to»
  let finalRange : DTRange := ⟨finalFrom, finalTo⟩
  ({ s with range := finalRange,
            startInputValue := formatOpt opts finalFrom,
            endInputValue := formatOpt opts finalTo,
            isStartDirty := false, isEndDirty := false },
   some finalRange)

end RangePicker

/-- Dragged endpoint discriminator (`'start' | 'end'`). -/
inductive Endpoint where
  | start : Endpoint
  | stop : Endpoint
deriving DecidableEq, Repr

/-- The `DragState` of `date-time-range-picker.tsx`. -/
structure DragState where
  isDragging : Bool
  draggingEndpoint : Option Endpoint
  previewRange : Option DTRange
  originalRange : Option DTRange
  startDay : Option DateTime
  hasMoved : Bool
deriving DecidableEq, Repr

/-- The `initialDragState` constant (idle). -/
def initialDragState : DragState :=
  ⟨false, none, none, none, none, false⟩

/-- Transition of `startDrag`: enter the dragging state with the
grabbed endpoint, a snapshot of the current range, and the day the
pointer went down on. -/
def startDrag (endpoint : Endpoint) (originalRange : DTRange)
    (day : DateTime) : DragState :=
  ⟨true, some endpoint, none, some originalRange, some day, false⟩

/-- Transition of `updatePreview` on pointer-over of a day cell: ignore
hovers before any movement away from the start day; otherwise move the
dragged endpoint's day to the hovered day, keep the opposite endpoint,
and swap the pair when the day-truncated bounds are inverted so the
preview always satisfies `from <= to` at day granularity. -/
def updatePreview (day : DateTime) (prev : DragState) : DragState :=
  if prev.isDragging = false then prev
  else
    match prev.originalRange with
    | none => prev
    | some orig =>
        let moved : Bool :=
          match prev.startDay with
          | some sd => !(isSameDay day sd)
          | none => true
        if !moved && !prev.hasMoved then prev
        else
          let pair : Option DateTime × Option DateTime :=
            match prev.draggingEndpoint with
            | some .start => (some day, orig.«to»)
            | _ => (orig.«from», some day)
          let swapped : Option DateTime × Option DateTime :=
            match pair with
            | (some f, some t) =>
                if decide ((stripTime t).lt (stripTime f)) then (some t, some f)
                else (some f, some t)
            | _ => pair
          { prev with hasMoved := true,
                      previewRange := some ⟨swapped.1, swapped.2⟩ }

/-- Transition of `finishDrag` (pointer-up on a cell, or the
window-level fallback listener: both call the same function): reset to
idle, and request a commit of the preview only if the pointer moved to
a different day at some point. -/
def finishDrag (prev : DragState) : DragState × Option DTRange :=
  if prev.isDragging = false then (prev, none)
  else
    match prev.hasMoved, prev.previewRange with
    | true, some pr => (initialDragState, some pr)
    | _, _ => (initialDragState, none)

/-- Composite pointer-up step: `finishDrag` followed, when a commit is
requested, by the controller's `handleDragEnd`.  Returns the controller
state, the `onChange` notification, and the drag state. -/
def dragPointerUp (opts : DateTimeFormatOptions) (s : RangePicker.State)
    (ds : DragState) : RangePicker.State × Option DTRange × DragState :=
  match finishDrag ds with
  | (ds2, some pr) =>
      let (s2, ev) := RangePicker.handleDragEnd opts pr s
      (s2, ev, ds2)
  | (ds2, none) => (s, none, ds2)

/-- Fold of `updatePreview` over a sequence of hovered days. -/
def runHovers (ds : DragState) (days : List DateTime) : DragState :=
  days.foldl (fun d day => updatePreview day d) ds

/-- Modelled from the spec: the duration display of §4.4 (day and night
counts of a complete range).  The implementation file of the range
picker's `showDuration` feature is not among the provided sources (only
its tests and the demo page reference it), so this follows the
specification text: whole-day count is (day-truncated `to` −
day-truncated `from`) / one day + 1, night count is day count − 1, and
a negative day-truncated span yields `none` ("no duration available")
rather than a negative number. -/
def rangeDuration (f t : DateTime) : Option (Nat × Nat) :=
  let diff : Int := (stripTime t).dayNumber - (stripTime f).dayNumber
  if diff < 0 then none
  else some ((diff + 1).toNat, diff.toNat)

/-! Supporting lemmas about the digit-level parser/formatter tokens. -/

theorem char_digit_isDigit (n : Nat) : (Char.ofNat (48 + n % 10)).isDigit = true := by
  have h : n % 10 < 10 := Nat.mod_lt _ (by norm_num)
  generalize n % 10 = x at h ⊢
  interval_cases x <;> decide

theorem char_digit_toNat (n : Nat) : (Char.ofNat (48 + n % 10)).toNat = 48 + n % 10 := by
  have h : n % 10 < 10 := Nat.mod_lt _ (by norm_num)
  generalize n % 10 = x at h ⊢
  interval_cases x <;> decide

theorem char_digit_not_ws (n : Nat) :
    isWhitespaceChar (Char.ofNat (48 + n % 10)) = false := by
  have h : n % 10 < 10 := Nat.mod_lt _ (by norm_num)
  generalize n % 10 = x at h ⊢
  interval_cases x <;> decide

theorem mod_pow_ten_succ (n k : Nat) :
    n % 10 ^ (k + 1) = n / 10 ^ k % 10 * 10 ^ k + n % 10 ^ k := by
  rw [pow_succ, Nat.mod_mul]
  ring

theorem readDigitsAux_padNum (k : Nat) :
    ∀ (n acc : Nat) (rest : List Char),
      readDigitsAux k (padNum k n ++ rest) acc =
        (acc * 10 ^ k + n % 10 ^ k, rest) := by
  induction k with
  | zero => intro n acc rest; simp [padNum, readDigitsAux, Nat.mod_one]
  | succ k ih =>
      intro n acc rest
      rw [padNum, List.cons_append, readDigitsAux, if_pos (char_digit_isDigit (n / 10 ^ k)),
        char_digit_toNat, ih]
      have h1 : 48 + n / 10 ^ k % 10 - 48 = n / 10 ^ k % 10 := by omega
      rw [h1, mod_pow_ten_succ]
      simp only [Prod.mk.injEq, and_true]
      ring

theorem pNum_padNum (k n : Nat) (rest : List Char) (hn : n < 10 ^ (k + 1)) :
    pNum (k + 1) (padNum (k + 1) n ++ rest) = some (n, rest) := by
  rw [padNum, List.cons_append, pNum, if_pos (char_digit_isDigit (n / 10 ^ k)),
    ← List.cons_append, ← padNum, readDigitsAux_padNum]
  rw [Nat.mod_eq_of_lt hn]
  simp

theorem pChar_cons (ch : Char) (rest : List Char) :
    pChar ch (ch :: rest) = some rest := by
  simp [pChar]

theorem pMeridiem_format (h : Nat) (rest : List Char) :
    pMeridiem (meridiemChars h ++ rest) =
      some ((if h < 12 then Meridiem.am else Meridiem.pm), rest) := by
  unfold meridiemChars
  split <;> simp [pMeridiem]

theorem hourFrom12_display (h : Nat) (hh : h ≤ 23) :
    hourFrom12 (hour12Display h)
      (if h < 12 then Meridiem.am else Meridiem.pm) = h := by
  rcases Nat.lt_or_ge h 12 with h12 | h12
  · rw [if_pos h12]
    simp only [hourFrom12, hour12Display]
    split_ifs <;> omega
  · rw [if_neg (by omega)]
    simp only [hourFrom12, hour12Display]
    split_ifs <;> omega

theorem hour12Display_bounds (h : Nat) :
    1 ≤ hour12Display h ∧ hour12Display h ≤ 12 := by
  unfold hour12Display
  split_ifs <;> omega

theorem readDigitsAux_lt (k : Nat) :
    ∀ (cs : List Char) (acc : Nat),
      (readDigitsAux k cs acc).1 < (acc + 1) * 10 ^ k := by
  induction k with
  | zero => intro cs acc; simp [readDigitsAux]
  | succ k ih =>
      intro cs acc
      match cs with
      | [] =>
          have h10 : 0 < 10 ^ (k + 1) := pow_pos (by norm_num) _
          simp only [readDigitsAux]
          calc acc < acc + 1 := Nat.lt_succ_self acc
            _ ≤ (acc + 1) * 10 ^ (k + 1) := Nat.le_mul_of_pos_right _ h10
      | c :: cs2 =>
          rw [readDigitsAux]
          split_ifs with hc
          · have hd : c.toNat - 48 ≤ 9 := by
              simp only [Char.isDigit, Bool.and_eq_true, decide_eq_true_eq] at hc
              obtain ⟨hc1, hc2⟩ := hc
              have h3 : c.val.toNat ≤ 57 := hc2
              unfold Char.toNat
              omega
            calc (readDigitsAux k cs2 (acc * 10 + (c.toNat - 48))).1
                < (acc * 10 + (c.toNat - 48) + 1) * 10 ^ k := ih cs2 _
              _ ≤ ((acc + 1) * 10) * 10 ^ k := by
                  apply Nat.mul_le_mul_right
                  omega
              _ = (acc + 1) * 10 ^ (k + 1) := by ring
          · have h10 : 0 < 10 ^ (k + 1) := pow_pos (by norm_num) _
            calc acc < acc + 1 := Nat.lt_succ_self acc
              _ ≤ (acc + 1) * 10 ^ (k + 1) := Nat.le_mul_of_pos_right _ h10

theorem pNum_lt (k : Nat) (cs rest : List Char) (n : Nat)
    (h : pNum k cs = some (n, rest)) : n < 10 ^ k := by
  match cs with
  | [] => simp [pNum] at h
  | c :: cs2 =>
      simp only [pNum] at h
      by_cases hc : c.isDigit = true
      · rw [if_pos hc] at h
        have hlt := readDigitsAux_lt k (c :: cs2) 0
        simp only [Option.some.injEq] at h
        rw [h] at hlt
        simpa using hlt
      · rw [if_neg hc] at h
        simp at h

/-- Normal form guaranteed for every value the parser returns: the
fields are in calendar range, and the seconds are zero when the pattern
has no seconds token. -/
def CanonicalFor (opts : DateTimeFormatOptions) (d : DateTime) : Prop :=
  d.Valid ∧ (opts.showSeconds = false → d.second = 0)

theorem hourFrom12_le (ht : Nat) (mer : Meridiem) (h1 : 1 ≤ ht) (h2 : ht ≤ 12) :
    hourFrom12 ht mer ≤ 23 := by
  cases mer <;> simp only [hourFrom12] <;> split_ifs <;> omega

theorem pNum_fst_lt (k : Nat) (cs : List Char) (p : Nat × List Char)
    (h : pNum k cs = some p) : p.1 < 10 ^ k := by
  obtain ⟨n, rest⟩ := p
  exact pNum_lt k cs rest n h

set_option maxHeartbeats 2000000 in
theorem parseCore_canonical (opts : DateTimeFormatOptions) (cs : List Char)
    (d : DateTime) (h : parseCore opts cs = some d) : CanonicalFor opts d := by
  obtain ⟨tf, ss⟩ := opts
  cases tf <;> cases ss <;>
    simp only [parseCore, Option.some_bind, Option.bind_eq_some,
      Option.ite_none_right_eq_some, Option.some.injEq, Bool.false_eq_true,
      if_false, if_true, ite_false, ite_true] at h
  · -- 12h, no seconds
    obtain ⟨py, hy, _, _, pmo, _, _, _, pda, _, _, _, pht, _, _, _, pmi, _,
      hv, _, _, pmer, _, hb, hd⟩ := h
    subst hd
    have hy4 := pNum_fst_lt 4 cs py hy
    norm_num at hy4
    exact ⟨⟨hv.1, (show py.1 ≤ 9999 by omega), hv.2.1, hv.2.2.1, hv.2.2.2.1,
      hv.2.2.2.2.1, hourFrom12_le _ _ hb.1 hb.2.1, hv.2.2.2.2.2.1,
      (show (0 : Nat) ≤ 59 by omega)⟩, fun _ => rfl⟩
  · -- 12h, seconds
    obtain ⟨py, hy, _, _, pmo, _, _, _, pda, _, _, _, pht, _, _, _, pmi, _,
      psec, ⟨_, _, _⟩, hv, _, _, pmer, _, hb, hd⟩ := h
    subst hd
    have hy4 := pNum_fst_lt 4 cs py hy
    norm_num at hy4
    exact ⟨⟨hv.1, (show py.1 ≤ 9999 by omega), hv.2.1, hv.2.2.1, hv.2.2.2.1,
      hv.2.2.2.2.1, hourFrom12_le _ _ hb.1 hb.2.1, hv.2.2.2.2.2.1,
      hv.2.2.2.2.2.2⟩, fun hss => by cases hss⟩
  · -- 24h, no seconds
    obtain ⟨py, hy, _, _, pmo, _, _, _, pda, _, _, _, pht, _, _, _, pmi, _,
      hv, hb, hd⟩ := h
    subst hd
    have hy4 := pNum_fst_lt 4 cs py hy
    norm_num at hy4
    exact ⟨⟨hv.1, (show py.1 ≤ 9999 by omega), hv.2.1, hv.2.2.1, hv.2.2.2.1,
      hv.2.2.2.2.1, hb.1, hv.2.2.2.2.2.1, (show (0 : Nat) ≤ 59 by omega)⟩,
      fun _ => rfl⟩
  · -- 24h, seconds
    obtain ⟨py, hy, _, _, pmo, _, _, _, pda, _, _, _, pht, _, _, _, pmi, _,
      psec, ⟨_, _, _⟩, hv, hb, hd⟩ := h
    subst hd
    have hy4 := pNum_fst_lt 4 cs py hy
    norm_num at hy4
    exact ⟨⟨hv.1, (show py.1 ≤ 9999 by omega), hv.2.1, hv.2.2.1, hv.2.2.2.1,
      hv.2.2.2.2.1, hb.1, hv.2.2.2.2.2.1, hv.2.2.2.2.2.2⟩,
      fun hss => by cases hss⟩

theorem trimChars_eq_self (cs : List Char)
    (h0 : ∀ c, cs.head? = some c → isWhitespaceChar c = false)
    (h1 : ∀ c, cs.reverse.head? = some c → isWhitespaceChar c = false) :
    trimChars cs = cs := by
  unfold trimChars
  cases cs with
  | nil => rfl
  | cons a l =>
      have ha : isWhitespaceChar a = false := h0 a rfl
      rw [List.dropWhile_cons, ha]
      simp only [Bool.false_eq_true, if_false, ite_false]
      rcases hrev : (a :: l).reverse with _ | ⟨b, r2⟩
      · exact absurd hrev (by simp)
      · have hb : isWhitespaceChar b = false := by
          apply h1
          rw [hrev]
          rfl
        rw [List.dropWhile_cons, hb]
        simp only [Bool.false_eq_true, if_false, ite_false]
        rw [← hrev, List.reverse_reverse]

theorem trim_format (d : DateTime) (opts : DateTimeFormatOptions) :
    trimChars (formatDateTime d opts) = formatDateTime d opts := by
  apply trimChars_eq_self
  · intro c hc
    obtain ⟨tf, ss⟩ := opts
    cases tf <;> cases ss <;>
      · simp only [formatDateTime, padNum, List.cons_append, List.head?_cons,
          Option.some.injEq] at hc
        rw [← hc]
        exact char_digit_not_ws _
  · intro c hc
    obtain ⟨tf, ss⟩ := opts
    rcases Nat.lt_or_ge d.hour 12 with hh | hh
    · cases tf <;> cases ss <;>
        simp only [formatDateTime, padNum, meridiemChars, hh, if_true, if_false,
          ite_true, ite_false, Bool.false_eq_true, Bool.true_eq_false,
          List.cons_append, List.nil_append, List.append_nil,
          List.reverse_append, List.reverse_cons, List.reverse_nil,
          List.append_assoc, List.singleton_append, List.head?_cons,
          Option.some.injEq] at hc <;>
      first
        | (rw [← hc]; exact char_digit_not_ws _)
        | (rw [← hc]; decide)
    · have hh2 : ¬ d.hour < 12 := Nat.not_lt.mpr hh
      cases tf <;> cases ss <;>
        simp only [formatDateTime, padNum, meridiemChars, hh2, if_true, if_false,
          ite_true, ite_false, Bool.false_eq_true, Bool.true_eq_false,
          List.cons_append, List.nil_append, List.append_nil,
          List.reverse_append, List.reverse_cons, List.reverse_nil,
          List.append_assoc, List.singleton_append, List.head?_cons,
          Option.some.injEq] at hc <;>
      first
        | (rw [← hc]; exact char_digit_not_ws _)
        | (rw [← hc]; decide)

theorem daysInMonth_le_31 (y m : Nat) : daysInMonth y m ≤ 31 := by
  unfold daysInMonth
  split_ifs <;> omega

theorem pNum_padNum_nil (k n : Nat) (hn : n < 10 ^ (k + 1)) :
    pNum (k + 1) (padNum (k + 1) n) = some (n, []) := by
  conv_lhs => rw [← List.append_nil (padNum (k + 1) n)]
  exact pNum_padNum k n [] hn
theorem parseCore_format_h24f (d : DateTime) (h : CanonicalFor ⟨.h24, false⟩ d) :
    parseCore ⟨.h24, false⟩ (formatDateTime d ⟨.h24, false⟩) = some d := by
  obtain ⟨⟨h1y, h2y, h1mo, h2mo, h1da, h2da, hho, hmi, hse⟩, hsec0⟩ := h
  have hs0 : d.second = 0 := hsec0 rfl
  have hby : d.year < 10 ^ (3 + 1) := by norm_num; omega
  have hbmo : d.month < 10 ^ (1 + 1) := by norm_num; omega
  have hbda : d.day < 10 ^ (1 + 1) := by
    have := daysInMonth_le_31 d.year d.month
    norm_num; omega
  have hbho : d.hour < 10 ^ (1 + 1) := by norm_num; omega
  have hbmi : d.minute < 10 ^ (1 + 1) := by norm_num; omega
  simp only [formatDateTime, List.append_assoc, List.cons_append,
    Bool.false_eq_true, if_false, ite_false, List.append_nil]
  simp only [parseCore]
  rw [pNum_padNum 3 d.year _ hby]
  simp only [Option.some_bind]
  rw [pChar_cons]
  simp only [Option.some_bind]
  rw [pNum_padNum 1 d.month _ hbmo]
  simp only [Option.some_bind]
  rw [pChar_cons]
  simp only [Option.some_bind]
  rw [pNum_padNum 1 d.day _ hbda]
  simp only [Option.some_bind]
  rw [pChar_cons]
  simp only [Option.some_bind]
  rw [pNum_padNum 1 d.hour _ hbho]
  simp only [Option.some_bind]
  rw [pChar_cons]
  simp only [Option.some_bind]
  rw [pNum_padNum_nil 1 d.minute hbmi]
  simp only [Option.some_bind, Bool.false_eq_true, if_false, ite_false]
  rw [if_pos ⟨h1y, h1mo, h2mo, h1da, h2da, hmi, by omega⟩]
  rw [if_pos ⟨hho, trivial⟩]
  rw [← hs0]

theorem pMeridiem_format_nil (h : Nat) :
    pMeridiem (meridiemChars h) = some ((if h < 12 then Meridiem.am else Meridiem.pm), []) := by
  conv_lhs => rw [← List.append_nil (meridiemChars h)]
  exact pMeridiem_format h []

theorem parseCore_format_h24t (d : DateTime) (h : CanonicalFor ⟨.h24, true⟩ d) :
    parseCore ⟨.h24, true⟩ (formatDateTime d ⟨.h24, true⟩) = some d := by
  obtain ⟨⟨h1y, h2y, h1mo, h2mo, h1da, h2da, hho, hmi, hse⟩, _⟩ := h
  have hby : d.year < 10 ^ (3 + 1) := by norm_num; omega
  have hbmo : d.month < 10 ^ (1 + 1) := by norm_num; omega
  have hbda : d.day < 10 ^ (1 + 1) := by
    have := daysInMonth_le_31 d.year d.month
    norm_num; omega
  have hbho : d.hour < 10 ^ (1 + 1) := by norm_num; omega
  have hbmi : d.minute < 10 ^ (1 + 1) := by norm_num; omega
  have hbse : d.second < 10 ^ (1 + 1) := by norm_num; omega
  simp only [formatDateTime, List.append_assoc, List.cons_append,
    if_true, ite_true, List.append_nil]
  simp only [parseCore]
  rw [pNum_padNum 3 d.year _ hby]
  simp only [Option.some_bind]
  rw [pChar_cons]
  simp only [Option.some_bind]
  rw [pNum_padNum 1 d.month _ hbmo]
  simp only [Option.some_bind]
  rw [pChar_cons]
  simp only [Option.some_bind]
  rw [pNum_padNum 1 d.day _ hbda]
  simp only [Option.some_bind]
  rw [pChar_cons]
  simp only [Option.some_bind]
  rw [pNum_padNum 1 d.hour _ hbho]
  simp only [Option.some_bind]
  rw [pChar_cons]
  simp only [Option.some_bind]
  rw [pNum_padNum 1 d.minute _ hbmi]
  simp only [Option.some_bind, if_true, ite_true]
  rw [pChar_cons]
  simp only [Option.some_bind]
  rw [pNum_padNum_nil 1 d.second hbse]
  simp only [Option.some_bind]
  rw [if_pos ⟨h1y, h1mo, h2mo, h1da, h2da, hmi, hse⟩]
  rw [if_pos ⟨hho, trivial⟩]

theorem parseCore_format_h12f (d : DateTime) (h : CanonicalFor ⟨.h12, false⟩ d) :
    parseCore ⟨.h12, false⟩ (formatDateTime d ⟨.h12, false⟩) = some d := by
  obtain ⟨⟨h1y, h2y, h1mo, h2mo, h1da, h2da, hho, hmi, hse⟩, hsec0⟩ := h
  have hs0 : d.second = 0 := hsec0 rfl
  have hby : d.year < 10 ^ (3 + 1) := by norm_num; omega
  have hbmo : d.month < 10 ^ (1 + 1) := by norm_num; omega
  have hbda : d.day < 10 ^ (1 + 1) := by
    have := daysInMonth_le_31 d.year d.month
    norm_num; omega
  have hbh12 : hour12Display d.hour < 10 ^ (1 + 1) := by
    have := hour12Display_bounds d.hour
    norm_num; omega
  have hbmi : d.minute < 10 ^ (1 + 1) := by norm_num; omega
  simp only [formatDateTime, List.append_assoc, List.cons_append,
    Bool.false_eq_true, if_false, ite_false, List.append_nil, List.nil_append]
  simp only [parseCore]
  rw [pNum_padNum 3 d.year _ hby]
  simp only [Option.some_bind]
  rw [pChar_cons]
  simp only [Option.some_bind]
  rw [pNum_padNum 1 d.month _ hbmo]
  simp only [Option.some_bind]
  rw [pChar_cons]
  simp only [Option.some_bind]
  rw [pNum_padNum 1 d.day _ hbda]
  simp only [Option.some_bind]
  rw [pChar_cons]
  simp only [Option.some_bind]
  rw [pNum_padNum 1 (hour12Display d.hour) _ hbh12]
  simp only [Option.some_bind]
  rw [pChar_cons]
  simp only [Option.some_bind]
  rw [pNum_padNum 1 d.minute _ hbmi]
  simp only [Option.some_bind, Bool.false_eq_true, if_false, ite_false]
  rw [if_pos ⟨h1y, h1mo, h2mo, h1da, h2da, hmi, by omega⟩]
  rw [pChar_cons]
  simp only [Option.some_bind]
  rw [pMeridiem_format_nil]
  simp only [Option.some_bind]
  rw [if_pos ⟨(hour12Display_bounds d.hour).1, (hour12Display_bounds d.hour).2, trivial⟩]
  rw [hourFrom12_display d.hour hho, ← hs0]

theorem parseCore_format_h12t (d : DateTime) (h : CanonicalFor ⟨.h12, true⟩ d) :
    parseCore ⟨.h12, true⟩ (formatDateTime d ⟨.h12, true⟩) = some d := by
  obtain ⟨⟨h1y, h2y, h1mo, h2mo, h1da, h2da, hho, hmi, hse⟩, _⟩ := h
  have hby : d.year < 10 ^ (3 + 1) := by norm_num; omega
  have hbmo : d.month < 10 ^ (1 + 1) := by norm_num; omega
  have hbda : d.day < 10 ^ (1 + 1) := by
    have := daysInMonth_le_31 d.year d.month
    norm_num; omega
  have hbh12 : hour12Display d.hour < 10 ^ (1 + 1) := by
    have := hour12Display_bounds d.hour
    norm_num; omega
  have hbmi : d.minute < 10 ^ (1 + 1) := by norm_num; omega
  have hbse : d.second < 10 ^ (1 + 1) := by norm_num; omega
  simp only [formatDateTime, List.append_assoc, List.cons_append,
    if_true, ite_true, List.append_nil, List.nil_append]
  simp only [parseCore]
  rw [pNum_padNum 3 d.year _ hby]
  simp only [Option.some_bind]
  rw [pChar_cons]
  simp only [Option.some_bind]
  rw [pNum_padNum 1 d.month _ hbmo]
  simp only [Option.some_bind]
  rw [pChar_cons]
  simp only [Option.some_bind]
  rw [pNum_padNum 1 d.day _ hbda]
  simp only [Option.some_bind]
  rw [pChar_cons]
  simp only [Option.some_bind]
  rw [pNum_padNum 1 (hour12Display d.hour) _ hbh12]
  simp only [Option.some_bind]
  rw [pChar_cons]
  simp only [Option.some_bind]
  rw [pNum_padNum 1 d.minute _ hbmi]
  simp only [Option.some_bind, if_true, ite_true]
  rw [pChar_cons]
  simp only [Option.some_bind]
  rw [pNum_padNum 1 d.second _ hbse]
  simp only [Option.some_bind]
  rw [if_pos ⟨h1y, h1mo, h2mo, h1da, h2da, hmi, hse⟩]
  rw [pChar_cons]
  simp only [Option.some_bind]
  rw [pMeridiem_format_nil]
  simp only [Option.some_bind]
  rw [if_pos ⟨(hour12Display_bounds d.hour).1, (hour12Display_bounds d.hour).2, trivial⟩]
  rw [hourFrom12_display d.hour hho]


/-- C8: for every string accepted by the active format pattern,
parsing, reformatting with the canonical formatter, and reparsing gives
back the same value: `parse (format (parse s)) = parse s` for each of
the four `{timeFormat, showSeconds}` configurations and any fixed
reference date. -/
theorem C8_parse_format_roundtrip (opts : DateTimeFormatOptions)
    (referenceDate : DateTime) (s : List Char) (d : DateTime)
    (h : parseDateTimeString s opts referenceDate = some d) :
    parseDateTimeString (formatDateTime d opts) opts referenceDate = some d := by
  unfold parseDateTimeString at h ⊢
  have hc := parseCore_canonical opts _ d h
  rw [trim_format]
  obtain ⟨tf, ss⟩ := opts
  cases tf <;> cases ss
  · exact parseCore_format_h12f d hc
  · exact parseCore_format_h12t d hc
  · exact parseCore_format_h24f d hc
  · exact parseCore_format_h24t d hc

/-- Witness for C8 at the concrete string `"2025-6-15 02:30 PM"` (12h,
no seconds), whose parse normalises the one-digit month and confirms
the round trip. -/
theorem C8_parse_format_roundtrip_witness :
    parseDateTimeString
      (formatDateTime ⟨2025, 6, 15, 14, 30, 0⟩ ⟨TimeFormat.h12, false⟩)
      ⟨TimeFormat.h12, false⟩ ⟨2025, 1, 1, 0, 0, 0⟩ =
      some ⟨2025, 6, 15, 14, 30, 0⟩ :=
  C8_parse_format_roundtrip ⟨TimeFormat.h12, false⟩ ⟨2025, 1, 1, 0, 0, 0⟩
    ('2' :: '0' :: '2' :: '5' :: '-' :: '6' :: '-' :: '1' :: '5' :: ' ' ::
      '0' :: '2' :: ':' :: '3' :: '0' :: ' ' :: 'P' :: 'M' :: [])
    ⟨2025, 6, 15, 14, 30, 0⟩ (by decide)

/-- C3: when the typed text fails to parse, `confirmInput` restores the
last committed value's formatted text, clears the dirty flag, leaves
the value unchanged and does not call `onChange`; when the field is not
dirty, `confirmInput` is a no-op.  No exception can occur: the embedded
transition is a total function. -/
theorem C3_confirm_input_failure_reverts (opts : DateTimeFormatOptions)
    (now : DateTime) :
    (∀ s : SinglePicker.State, s.isDirty = true →
       parseDateTimeString s.inputValue opts now = none →
       SinglePicker.confirmInput opts now s =
         ({ s with inputValue := formatOpt opts s.date, isDirty := false },
          none)) ∧
    (∀ s : SinglePicker.State, s.isDirty = false →
       SinglePicker.confirmInput opts now s = (s, none)) := by
  constructor
  · intro s hd hp
    unfold SinglePicker.confirmInput
    simp [hd, hp]
  · intro s hd
    unfold SinglePicker.confirmInput
    simp [hd]

/-- Witness for C3: typing `"garbage"` over a field showing
`"2025-06-15 14:30"` and confirming reverts the text and commits
nothing; confirming a clean field does nothing. -/
theorem C3_confirm_input_failure_reverts_witness :
    SinglePicker.confirmInput ⟨TimeFormat.h24, false⟩ ⟨2025, 1, 1, 0, 0, 0⟩
        ⟨some ⟨2025, 6, 15, 14, 30, 0⟩, "garbage".toList, true,
         ⟨2025, 6, 15, 14, 30, 0⟩⟩ =
      (⟨some ⟨2025, 6, 15, 14, 30, 0⟩, "2025-06-15 14:30".toList, false,
        ⟨2025, 6, 15, 14, 30, 0⟩⟩, none) ∧
    SinglePicker.confirmInput ⟨TimeFormat.h24, false⟩ ⟨2025, 1, 1, 0, 0, 0⟩
        ⟨none, [], false, ⟨2025, 1, 1, 0, 0, 0⟩⟩ =
      (⟨none, [], false, ⟨2025, 1, 1, 0, 0, 0⟩⟩, none) :=
  ⟨(C3_confirm_input_failure_reverts ⟨TimeFormat.h24, false⟩
      ⟨2025, 1, 1, 0, 0, 0⟩).1 _ rfl (by decide),
   (C3_confirm_input_failure_reverts ⟨TimeFormat.h24, false⟩
      ⟨2025, 1, 1, 0, 0, 0⟩).2 _ rfl⟩

/-- C2: a validly parsed end text strictly before the current `from` is
rejected by `confirmEndInput`: the end text reverts to the last
committed end value's text, the end dirty flag clears, `onChange` is
not called and the range is unchanged. -/
theorem C2_confirm_end_rejects_before_start (opts : DateTimeFormatOptions)
    (now : DateTime) (s : RangePicker.State) (parsed f : DateTime)
    (hd : s.isEndDirty = true)
    (hp : parseDateTimeString s.endInputValue opts now = some parsed)
    (hf : s.range.«from» = some f)
    (hlt : parsed.lt f) :
    RangePicker.confirmEndInput opts now s =
      ({ s with endInputValue := formatOpt opts s.range.«to»,
                isEndDirty := false }, none) := by
  have hg : RangePicker.endBeforeStart parsed s.range.«from» = true := by
    rw [hf]
    exact decide_eq_true hlt
  unfold RangePicker.confirmEndInput
  simp [hd, hp, hg]

/-- Witness for C2: range `Jun 10 – Jun 15`, end text `"2025-06-05 00:00"`
parses before `from` and is rejected with a revert and no commit. -/
theorem C2_confirm_end_rejects_before_start_witness :
    RangePicker.confirmEndInput ⟨TimeFormat.h24, false⟩ ⟨2025, 1, 1, 0, 0, 0⟩
        ⟨⟨some ⟨2025, 6, 10, 0, 0, 0⟩, some ⟨2025, 6, 15, 0, 0, 0⟩⟩, [],
         "2025-06-05 00:00".toList, false, true, ⟨2025, 6, 10, 0, 0, 0⟩,
         none⟩ =
      (⟨⟨some ⟨2025, 6, 10, 0, 0, 0⟩, some ⟨2025, 6, 15, 0, 0, 0⟩⟩, [],
        "2025-06-15 00:00".toList, false, false, ⟨2025, 6, 10, 0, 0, 0⟩,
        none⟩, none) :=
  C2_confirm_end_rejects_before_start ⟨TimeFormat.h24, false⟩
    ⟨2025, 1, 1, 0, 0, 0⟩ _ ⟨2025, 6, 5, 0, 0, 0⟩ ⟨2025, 6, 10, 0, 0, 0⟩
    rfl (by decide) rfl (by decide)

/-- C10: with `from` absent, `confirmEndInput` skips the cross-field
check: any validly parsed end text is committed and `onChange` is
notified with the end-only range `{ from: none, to: parsed }`. -/
theorem C10_end_only_commit (opts : DateTimeFormatOptions) (now : DateTime)
    (s : RangePicker.State) (parsed : DateTime)
    (hd : s.isEndDirty = true)
    (hf : s.range.«from» = none)
    (hp : parseDateTimeString s.endInputValue opts now = some parsed) :
    RangePicker.confirmEndInput opts now s =
      ({ s with range := ⟨none, some parsed⟩,
                endInputValue := formatDateTime parsed opts,
                isEndDirty := false },
       some ⟨none, some parsed⟩) := by
  have hg : RangePicker.endBeforeStart parsed s.range.«from» = false := by
    rw [hf]
    rfl
  unfold RangePicker.confirmEndInput
  simp [hd, hp, hg, hf, RangePicker.endBeforeStart]

/-- Witness for C10: an empty range accepts the end text
`"2025-06-05 00:00"` and notifies `{ from: none, to: Jun 5 }`. -/
theorem C10_end_only_commit_witness :
    RangePicker.confirmEndInput ⟨TimeFormat.h24, false⟩ ⟨2025, 1, 1, 0, 0, 0⟩
        ⟨⟨none, none⟩, [], "2025-06-05 00:00".toList, false, true,
         ⟨2025, 1, 1, 0, 0, 0⟩, none⟩ =
      (⟨⟨none, some ⟨2025, 6, 5, 0, 0, 0⟩⟩, [], "2025-06-05 00:00".toList,
        false, false, ⟨2025, 1, 1, 0, 0, 0⟩, none⟩,
       some ⟨none, some ⟨2025, 6, 5, 0, 0, 0⟩⟩) :=
  C10_end_only_commit ⟨TimeFormat.h24, false⟩ ⟨2025, 1, 1, 0, 0, 0⟩ _
    ⟨2025, 6, 5, 0, 0, 0⟩ rfl rfl (by decide)

/-- C4: a calendar click arriving while the range is not in the
selecting-end phase commits a fresh one-sided selection: `from` gets
the exact day recorded by the preceding `handleDayClick` (not the
grid's own `from`, over which the statement is universally quantified)
and `to` becomes absent; `onChange` receives exactly the committed
pair. -/
theorem C4_fresh_click_restarts (opts : DateTimeFormatOptions)
    (s : RangePicker.State) (dr : DTRange) (d : DateTime)
    (hclick : s.lastClickedDay = some d)
    (hphase : (s.range.«from».isSome && s.range.«to».isNone) = false) :
    Option.map (fun x => (x.year, x.month, x.day))
        ((RangePicker.handleCalendarSelect opts (some dr) s).1.range.«from») =
      some (d.year, d.month, d.day) ∧
    (RangePicker.handleCalendarSelect opts (some dr) s).1.range.«to» = none ∧
    (RangePicker.handleCalendarSelect opts (some dr) s).2 =
      some (RangePicker.handleCalendarSelect opts (some dr) s).1.range := by
  unfold RangePicker.handleCalendarSelect
  cases hfr : s.range.«from» with
  | none =>
      simp [hclick, hphase, hfr, RangePicker.mergeSlot]
  | some p =>
      cases hto : s.range.«to» with
      | none => simp [hfr, hto] at hphase
      | some q =>
          simp [hclick, hfr, hto, RangePicker.mergeSlot,
            RangePicker.preserveTime]

/-- Witness for C4: complete range `Jun 10 – Jun 15`, click on `Jun 25`
while the grid reports `{from: Jun 10, to: Jun 25}`: the commit is
`{from: Jun 25, to: absent}`. -/
theorem C4_fresh_click_restarts_witness :
    Option.map (fun x => (x.year, x.month, x.day))
        ((RangePicker.handleCalendarSelect ⟨TimeFormat.h24, false⟩
            (some ⟨some ⟨2025, 6, 10, 0, 0, 0⟩, some ⟨2025, 6, 25, 0, 0, 0⟩⟩)
            ⟨⟨some ⟨2025, 6, 10, 0, 0, 0⟩, some ⟨2025, 6, 15, 0, 0, 0⟩⟩, [],
             [], false, false, ⟨2025, 6, 10, 0, 0, 0⟩,
             some ⟨2025, 6, 25, 0, 0, 0⟩⟩).1.range.«from») =
      some (2025, 6, 25) ∧
    (RangePicker.handleCalendarSelect ⟨TimeFormat.h24, false⟩
        (some ⟨some ⟨2025, 6, 10, 0, 0, 0⟩, some ⟨2025, 6, 25, 0, 0, 0⟩⟩)
        ⟨⟨some ⟨2025, 6, 10, 0, 0, 0⟩, some ⟨2025, 6, 15, 0, 0, 0⟩⟩, [],
         [], false, false, ⟨2025, 6, 10, 0, 0, 0⟩,
         some ⟨2025, 6, 25, 0, 0, 0⟩⟩).1.range.«to» = none ∧
    (RangePicker.handleCalendarSelect ⟨TimeFormat.h24, false⟩
        (some ⟨some ⟨2025, 6, 10, 0, 0, 0⟩, some ⟨2025, 6, 25, 0, 0, 0⟩⟩)
        ⟨⟨some ⟨2025, 6, 10, 0, 0, 0⟩, some ⟨2025, 6, 15, 0, 0, 0⟩⟩, [],
         [], false, false, ⟨2025, 6, 10, 0, 0, 0⟩,
         some ⟨2025, 6, 25, 0, 0, 0⟩⟩).2 =
      some (RangePicker.handleCalendarSelect ⟨TimeFormat.h24, false⟩
        (some ⟨some ⟨2025, 6, 10, 0, 0, 0⟩, some ⟨2025, 6, 25, 0, 0, 0⟩⟩)
        ⟨⟨some ⟨2025, 6, 10, 0, 0, 0⟩, some ⟨2025, 6, 15, 0, 0, 0⟩⟩, [],
         [], false, false, ⟨2025, 6, 10, 0, 0, 0⟩,
         some ⟨2025, 6, 25, 0, 0, 0⟩⟩).1.range :=
  C4_fresh_click_restarts ⟨TimeFormat.h24, false⟩ _ _ ⟨2025, 6, 25, 0, 0, 0⟩
    rfl (by decide)

/-- C5: every calendar day selection merges the chosen day's
year/month/day with the previous value's hour/minute/second (midnight
when no previous value exists, the day cell being supplied at
midnight); the same slot-wise merge governs both endpoints of the range
picker's drag commit and its calendar commit. -/
theorem C5_day_selection_preserves_time (opts : DateTimeFormatOptions) :
    (∀ (s : SinglePicker.State) (sel prev : DateTime), s.date = some prev →
       (SinglePicker.handleCalendarSelect opts (some sel) s).1.date =
         some ⟨sel.year, sel.month, sel.day, prev.hour, prev.minute,
               prev.second⟩ ∧
       (SinglePicker.handleCalendarSelect opts (some sel) s).2 =
         some (some ⟨sel.year, sel.month, sel.day, prev.hour, prev.minute,
               prev.second⟩)) ∧
    (∀ (s : SinglePicker.State) (sel : DateTime), s.date = none →
       sel.hour = 0 → sel.minute = 0 → sel.second = 0 →
       (SinglePicker.handleCalendarSelect opts (some sel) s).1.date = some sel ∧
       (SinglePicker.handleCalendarSelect opts (some sel) s).2 =
         some (some sel)) ∧
    (∀ (s : RangePicker.State) (nr : DTRange) (nf pf : DateTime),
       nr.«from» = some nf → s.range.«from» = some pf →
       ((RangePicker.handleDragEnd opts nr s).1.range).«from» =
         some ⟨nf.year, nf.month, nf.day, pf.hour, pf.minute, pf.second⟩) ∧
    (∀ (s : RangePicker.State) (nr : DTRange) (nt pt : DateTime),
       nr.«to» = some nt → s.range.«to» = some pt →
       ((RangePicker.handleDragEnd opts nr s).1.range).«to» =
         some ⟨nt.year, nt.month, nt.day, pt.hour, pt.minute, pt.second⟩) ∧
    (∀ (s : RangePicker.State) (dr : DTRange) (nf pf : DateTime),
       s.range.«from» = some pf → s.range.«to» = none → dr.«from» = some nf →
       ((RangePicker.handleCalendarSelect opts (some dr) s).1.range).«from» =
         some ⟨nf.year, nf.month, nf.day, pf.hour, pf.minute, pf.second⟩) := by
  refine ⟨?_, ?_, ?_, ?_, ?_⟩
  · intro s sel prev hprev
    unfold SinglePicker.handleCalendarSelect
    simp [hprev]
  · intro s sel hnone _ _ _
    unfold SinglePicker.handleCalendarSelect
    simp [hnone]
  · intro s nr nf pf hnf hpf
    unfold RangePicker.handleDragEnd
    simp [hnf, hpf, RangePicker.mergeSlot, RangePicker.preserveTime]
  · intro s nr nt pt hnt hpt
    unfold RangePicker.handleDragEnd
    simp [hnt, hpt, RangePicker.mergeSlot, RangePicker.preserveTime]
  · intro s dr nf pf hpf hto hnf
    unfold RangePicker.handleCalendarSelect
    simp [hpf, hto, hnf, RangePicker.mergeSlot, RangePicker.preserveTime]

/-- Witness for C5: picking `Jun 20` over a value `Jun 15 14:30:45`
keeps `14:30:45`; the other merge clauses instantiated on the same
data. -/
theorem C5_day_selection_preserves_time_witness :
    ((SinglePicker.handleCalendarSelect ⟨TimeFormat.h24, false⟩
        (some ⟨2025, 6, 20, 0, 0, 0⟩)
        ⟨some ⟨2025, 6, 15, 14, 30, 45⟩, [], false,
         ⟨2025, 6, 15, 14, 30, 45⟩⟩).1.date =
      some ⟨2025, 6, 20, 14, 30, 45⟩) ∧
    ((RangePicker.handleDragEnd ⟨TimeFormat.h24, false⟩
        ⟨some ⟨2025, 6, 10, 0, 0, 0⟩, some ⟨2025, 6, 20, 0, 0, 0⟩⟩
        ⟨⟨some ⟨2025, 6, 10, 14, 30, 45⟩, some ⟨2025, 6, 15, 9, 15, 30⟩⟩,
         [], [], false, false, ⟨2025, 6, 10, 0, 0, 0⟩,
         none⟩).1.range).«to» =
      some ⟨2025, 6, 20, 9, 15, 30⟩ :=
  ⟨((C5_day_selection_preserves_time ⟨TimeFormat.h24, false⟩).1 _
      ⟨2025, 6, 20, 0, 0, 0⟩ ⟨2025, 6, 15, 14, 30, 45⟩ rfl).1,
   (C5_day_selection_preserves_time ⟨TimeFormat.h24, false⟩).2.2.2.1 _ _
      ⟨2025, 6, 20, 0, 0, 0⟩ ⟨2025, 6, 15, 9, 15, 30⟩ rfl rfl⟩

theorem updatePreview_same_day (e : Endpoint) (rng : DTRange)
    (day0 d : DateTime) (hsame : isSameDay d day0 = true) :
    updatePreview d (startDrag e rng day0) = startDrag e rng day0 := by
  unfold updatePreview startDrag
  simp [hsame]

theorem runHovers_same_day (e : Endpoint) (rng : DTRange) (day0 : DateTime)
    (days : List DateTime) (h : ∀ d ∈ days, isSameDay d day0 = true) :
    runHovers (startDrag e rng day0) days = startDrag e rng day0 := by
  induction days with
  | nil => rfl
  | cons d ds ih =>
      rw [runHovers, List.foldl_cons,
        updatePreview_same_day e rng day0 d (h d (by simp))]
      exact ih (fun x hx => h x (by simp [hx]))

/-- C7: a drag whose every hover stayed on the day where it started
commits nothing when it ends (whether the pointer-up lands on a cell or
on the window-level fallback, both of which run the same `finishDrag`):
no `onChange`, the range untouched, and the drag state back to idle. -/
theorem C7_unmoved_drag_commits_nothing (opts : DateTimeFormatOptions)
    (s : RangePicker.State) (endpoint : Endpoint) (rng : DTRange)
    (day0 : DateTime) (days : List DateTime)
    (h : ∀ d ∈ days, isSameDay d day0 = true) :
    dragPointerUp opts s (runHovers (startDrag endpoint rng day0) days) =
      (s, none, initialDragState) := by
  rw [runHovers_same_day endpoint rng day0 days h]
  rfl

/-- Witness for C7: pointer-down on the end marker of `Jun 10 – Jun 15`,
hovering only over `Jun 15` itself, then pointer-up: no commit. -/
theorem C7_unmoved_drag_commits_nothing_witness :
    dragPointerUp ⟨TimeFormat.h24, false⟩
        ⟨⟨some ⟨2025, 6, 10, 0, 0, 0⟩, some ⟨2025, 6, 15, 0, 0, 0⟩⟩, [], [],
         false, false, ⟨2025, 6, 10, 0, 0, 0⟩, none⟩
        (runHovers
          (startDrag Endpoint.stop
            ⟨some ⟨2025, 6, 10, 0, 0, 0⟩, some ⟨2025, 6, 15, 0, 0, 0⟩⟩
            ⟨2025, 6, 15, 0, 0, 0⟩)
          [⟨2025, 6, 15, 23, 59, 0⟩]) =
      (⟨⟨some ⟨2025, 6, 10, 0, 0, 0⟩, some ⟨2025, 6, 15, 0, 0, 0⟩⟩, [], [],
        false, false, ⟨2025, 6, 10, 0, 0, 0⟩, none⟩, none, initialDragState) :=
  C7_unmoved_drag_commits_nothing ⟨TimeFormat.h24, false⟩ _ Endpoint.stop _
    ⟨2025, 6, 15, 0, 0, 0⟩ [⟨2025, 6, 15, 23, 59, 0⟩] (by decide)

/-- C1 counterexample: with committed range `Jun 10 – Jun 15`, confirming
the start text `"2025-06-20 00:00"` commits and leaves standing a range
whose `from` (Jun 20) is strictly after its `to` (Jun 15): only
`confirmEndInput` enforces the cross-field invariant, `confirmStartInput`
does not. -/
theorem C1_counterexample :
    (RangePicker.confirmStartInput ⟨TimeFormat.h24, false⟩
        ⟨2025, 1, 1, 0, 0, 0⟩
        ⟨⟨some ⟨2025, 6, 10, 0, 0, 0⟩, some ⟨2025, 6, 15, 0, 0, 0⟩⟩,
         "2025-06-20 00:00".toList, [], true, false, ⟨2025, 6, 10, 0, 0, 0⟩,
         none⟩).1.range =
      ⟨some ⟨2025, 6, 20, 0, 0, 0⟩, some ⟨2025, 6, 15, 0, 0, 0⟩⟩ ∧
    (RangePicker.confirmStartInput ⟨TimeFormat.h24, false⟩
        ⟨2025, 1, 1, 0, 0, 0⟩
        ⟨⟨some ⟨2025, 6, 10, 0, 0, 0⟩, some ⟨2025, 6, 15, 0, 0, 0⟩⟩,
         "2025-06-20 00:00".toList, [], true, false, ⟨2025, 6, 10, 0, 0, 0⟩,
         none⟩).2 =
      some ⟨some ⟨2025, 6, 20, 0, 0, 0⟩, some ⟨2025, 6, 15, 0, 0, 0⟩⟩ ∧
    ¬ DateTime.le ⟨2025, 6, 20, 0, 0, 0⟩ ⟨2025, 6, 15, 0, 0, 0⟩ := by
  refine ⟨by decide, by decide, by decide⟩

/-- C1 amended: of the commit operations, `confirmEndInput` is the one
that maintains the cross-field invariant: whenever it notifies a commit
whose `from` and `to` are both present, `from <= to` holds. -/
theorem C1_amended_end_commit_ordered (opts : DateTimeFormatOptions)
    (now : DateTime) (s : RangePicker.State) (r : DTRange) (f t : DateTime)
    (hc : (RangePicker.confirmEndInput opts now s).2 = some r)
    (hf : r.«from» = some f) (ht : r.«to» = some t) :
    f.le t := by
  unfold RangePicker.confirmEndInput at hc
  cases hd : s.isEndDirty with
  | false => rw [hd] at hc; simp at hc
  | true =>
      rw [hd] at hc
      simp only [Bool.true_eq_false, if_false, ite_false] at hc
      cases hp : parseDateTimeString s.endInputValue opts now with
      | none => rw [hp] at hc; simp at hc
      | some parsed =>
          rw [hp] at hc
          cases hg : RangePicker.endBeforeStart parsed s.range.«from» with
          | true => simp [hg] at hc
          | false =>
              simp only [hg, Bool.false_eq_true, if_false, ite_false,
                Option.some.injEq] at hc
              rw [← hc] at hf ht
              simp only at hf ht
              rw [hf] at hg
              unfold RangePicker.endBeforeStart at hg
              simp only [Option.some.injEq] at ht
              subst ht
              simp only [decide_eq_false_iff_not, DateTime.lt] at hg
              unfold DateTime.le
              omega

/-- Witness for C1 amended: end text `"2025-06-12 00:00"` over a range
starting `Jun 10` commits, and `Jun 10 <= Jun 12`. -/
theorem C1_amended_end_commit_ordered_witness :
    DateTime.le ⟨2025, 6, 10, 0, 0, 0⟩ ⟨2025, 6, 12, 0, 0, 0⟩ :=
  C1_amended_end_commit_ordered ⟨TimeFormat.h24, false⟩ ⟨2025, 1, 1, 0, 0, 0⟩
    ⟨⟨some ⟨2025, 6, 10, 0, 0, 0⟩, some ⟨2025, 6, 15, 0, 0, 0⟩⟩, [],
     "2025-06-12 00:00".toList, false, true, ⟨2025, 6, 10, 0, 0, 0⟩, none⟩
    ⟨some ⟨2025, 6, 10, 0, 0, 0⟩, some ⟨2025, 6, 12, 0, 0, 0⟩⟩
    ⟨2025, 6, 10, 0, 0, 0⟩ ⟨2025, 6, 12, 0, 0, 0⟩ (by decide) rfl rfl

/-- C6 counterexample: range `Jun 10 08:00 – Jun 15 20:00`, dragging the
START marker to `Jun 20` auto-swaps the preview, and the committed range
is `{from: Jun 15 08:00, to: Jun 20 20:00}`: the non-dragged endpoint
(`Jun 15 20:00`) appears in neither committed slot — its calendar day
survives as `from` but carries the other endpoint's time-of-day. -/
theorem C6_counterexample :
    (dragPointerUp ⟨TimeFormat.h24, false⟩
        ⟨⟨some ⟨2025, 6, 10, 8, 0, 0⟩, some ⟨2025, 6, 15, 20, 0, 0⟩⟩, [], [],
         false, false, ⟨2025, 6, 10, 8, 0, 0⟩, none⟩
        (updatePreview ⟨2025, 6, 20, 0, 0, 0⟩
          (startDrag Endpoint.start
            ⟨some ⟨2025, 6, 10, 8, 0, 0⟩, some ⟨2025, 6, 15, 20, 0, 0⟩⟩
            ⟨2025, 6, 10, 8, 0, 0⟩))).2.1 =
      some ⟨some ⟨2025, 6, 15, 8, 0, 0⟩, some ⟨2025, 6, 20, 20, 0, 0⟩⟩ ∧
    (some ⟨2025, 6, 15, 8, 0, 0⟩ : Option DateTime) ≠
      some ⟨2025, 6, 15, 20, 0, 0⟩ ∧
    (some ⟨2025, 6, 20, 20, 0, 0⟩ : Option DateTime) ≠
      some ⟨2025, 6, 15, 20, 0, 0⟩ := by
  refine ⟨by decide, by decide, by decide⟩

/-- C6 amended: for a drag whose final hover does not trigger the
auto-swap (the hovered day has not crossed the fixed endpoint at day
granularity), the endpoint that was not dragged is committed exactly as
it was: same calendar date and same time-of-day.  The drag state ranges
over any preview, start day and movement flag, with `originalRange`
snapshotting the controller's current range as `startDrag` establishes. -/
theorem C6_amended_no_swap_fixed_endpoint (opts : DateTimeFormatOptions)
    (s : RangePicker.State) (dsp : Option DTRange) (dss : Option DateTime)
    (dsm : Bool) (day f t : DateTime)
    (hrange : s.range = ⟨some f, some t⟩) :
    (¬ DateTime.lt (stripTime day) (stripTime f) →
       ∀ r, (dragPointerUp opts s (updatePreview day
           ⟨true, some Endpoint.stop, dsp, some s.range, dss, dsm⟩)).2.1 =
             some r →
         r.«from» = some f) ∧
    (¬ DateTime.lt (stripTime t) (stripTime day) →
       ∀ r, (dragPointerUp opts s (updatePreview day
           ⟨true, some Endpoint.start, dsp, some s.range, dss, dsm⟩)).2.1 =
             some r →
         r.«to» = some t) := by
  constructor
  · intro hswap r hr
    have hdec : decide ((stripTime day).lt (stripTime f)) = false :=
      decide_eq_false hswap
    rw [hrange] at hr
    cases dss with
    | none =>
        simp [updatePreview, dragPointerUp, finishDrag,
          RangePicker.handleDragEnd, RangePicker.mergeSlot,
          RangePicker.preserveTime, hrange, hdec] at hr
        rw [← hr]
    | some sd =>
        cases hsd : isSameDay day sd with
        | false =>
            simp [updatePreview, dragPointerUp, finishDrag,
              RangePicker.handleDragEnd, RangePicker.mergeSlot,
              RangePicker.preserveTime, hrange, hdec, hsd] at hr
            rw [← hr]
        | true =>
            cases dsm with
            | false =>
                simp [updatePreview, dragPointerUp, finishDrag, hsd] at hr
            | true =>
                simp [updatePreview, dragPointerUp, finishDrag,
                  RangePicker.handleDragEnd, RangePicker.mergeSlot,
                  RangePicker.preserveTime, hrange, hdec, hsd] at hr
                rw [← hr]
  · intro hswap r hr
    have hdec : decide ((stripTime t).lt (stripTime day)) = false :=
      decide_eq_false hswap
    rw [hrange] at hr
    cases dss with
    | none =>
        simp [updatePreview, dragPointerUp, finishDrag,
          RangePicker.handleDragEnd, RangePicker.mergeSlot,
          RangePicker.preserveTime, hrange, hdec] at hr
        rw [← hr]
    | some sd =>
        cases hsd : isSameDay day sd with
        | false =>
            simp [updatePreview, dragPointerUp, finishDrag,
              RangePicker.handleDragEnd, RangePicker.mergeSlot,
              RangePicker.preserveTime, hrange, hdec, hsd] at hr
            rw [← hr]
        | true =>
            cases dsm with
            | false =>
                simp [updatePreview, dragPointerUp, finishDrag, hsd] at hr
            | true =>
                simp [updatePreview, dragPointerUp, finishDrag,
                  RangePicker.handleDragEnd, RangePicker.mergeSlot,
                  RangePicker.preserveTime, hrange, hdec, hsd] at hr
                rw [← hr]

/-- Witness for C6 amended: dragging the end of
`Jun 10 08:00 – Jun 15 20:00` to `Jun 20` (no swap) commits the
untouched start `Jun 10 08:00` exactly. -/
theorem C6_amended_no_swap_fixed_endpoint_witness :
    ((dragPointerUp ⟨TimeFormat.h24, false⟩
        ⟨⟨some ⟨2025, 6, 10, 8, 0, 0⟩, some ⟨2025, 6, 15, 20, 0, 0⟩⟩, [], [],
         false, false, ⟨2025, 6, 10, 8, 0, 0⟩, none⟩
        (updatePreview ⟨2025, 6, 20, 0, 0, 0⟩
          ⟨true, some Endpoint.stop, none,
           some ⟨some ⟨2025, 6, 10, 8, 0, 0⟩, some ⟨2025, 6, 15, 20, 0, 0⟩⟩,
           some ⟨2025, 6, 15, 20, 0, 0⟩, false⟩)).2.1 =
      some ⟨some ⟨2025, 6, 10, 8, 0, 0⟩, some ⟨2025, 6, 20, 20, 0, 0⟩⟩) ∧
    (⟨some ⟨2025, 6, 10, 8, 0, 0⟩, some ⟨2025, 6, 20, 20, 0, 0⟩⟩ :
        DTRange).«from» =
      some ⟨2025, 6, 10, 8, 0, 0⟩ :=
  ⟨by decide,
   (C6_amended_no_swap_fixed_endpoint ⟨TimeFormat.h24, false⟩
      ⟨⟨some ⟨2025, 6, 10, 8, 0, 0⟩, some ⟨2025, 6, 15, 20, 0, 0⟩⟩, [], [],
       false, false, ⟨2025, 6, 10, 8, 0, 0⟩, none⟩ none
      (some ⟨2025, 6, 15, 20, 0, 0⟩) false ⟨2025, 6, 20, 0, 0, 0⟩
      ⟨2025, 6, 10, 8, 0, 0⟩ ⟨2025, 6, 15, 20, 0, 0⟩ rfl).1 (by decide)
    ⟨some ⟨2025, 6, 10, 8, 0, 0⟩, some ⟨2025, 6, 20, 20, 0, 0⟩⟩ (by decide)⟩

/-- C9 counterexample: a range whose `to` (Feb 10 08:00) is strictly
before its `from` (Feb 10 14:00) but on the same calendar day is shown
as `"1 day, 0 nights"` by the §4.4 formula, not as unavailable: the
unavailability guard acts on the day-truncated difference, not on the
instants. -/
theorem C9_counterexample :
    DateTime.lt ⟨2025, 2, 10, 8, 0, 0⟩ ⟨2025, 2, 10, 14, 0, 0⟩ ∧
    rangeDuration ⟨2025, 2, 10, 14, 0, 0⟩ ⟨2025, 2, 10, 8, 0, 0⟩ =
      some (1, 0) := by
  refine ⟨by decide, by decide⟩

/-- C9 amended: for a complete range with `from <= to` the displayed
day count is the day-truncated difference plus one and the night count
is one less; a range whose day-truncated `to` precedes its day-truncated
`from` yields no duration; and the duration depends only on the
calendar days, ignoring time-of-day entirely. -/
theorem C9_amended_duration_counts :
    (∀ f t : DateTime, f.hour ≤ 23 → f.minute ≤ 59 → f.second ≤ 59 →
       t.hour ≤ 23 → t.minute ≤ 59 → t.second ≤ 59 → f.le t →
       rangeDuration f t =
         some ((t.dayNumber - f.dayNumber).toNat + 1,
               (t.dayNumber - f.dayNumber).toNat)) ∧
    (∀ f t : DateTime, t.dayNumber < f.dayNumber →
       rangeDuration f t = none) ∧
    (∀ f t : DateTime,
       rangeDuration f t = rangeDuration (stripTime f) (stripTime t)) := by
  refine ⟨?_, ?_, ?_⟩
  · intro f t hfh hfm hfs hth htm hts hle
    have hdn : f.dayNumber ≤ t.dayNumber := by
      unfold DateTime.le DateTime.epochSeconds DateTime.timeOfDaySeconds
        at hle
      omega
    unfold rangeDuration
    have hstf : (stripTime f).dayNumber = f.dayNumber := rfl
    have hstt : (stripTime t).dayNumber = t.dayNumber := rfl
    rw [hstf, hstt, if_neg (by omega)]
    have h1 : (t.dayNumber - f.dayNumber + 1).toNat =
        (t.dayNumber - f.dayNumber).toNat + 1 := by omega
    rw [h1]
  · intro f t hlt
    unfold rangeDuration
    have hstf : (stripTime f).dayNumber = f.dayNumber := rfl
    have hstt : (stripTime t).dayNumber = t.dayNumber := rfl
    rw [hstf, hstt, if_pos (by omega)]
  · intro f t
    rfl

/-- Witness for C9 amended: `Feb 10 – Feb 15` shows `6 days, 5 nights`;
`Feb 15 – Feb 10` (different days, reversed) shows nothing; stripping
times changes nothing. -/
theorem C9_amended_duration_counts_witness :
    rangeDuration ⟨2025, 2, 10, 0, 0, 0⟩ ⟨2025, 2, 15, 0, 0, 0⟩ =
      some (6, 5) ∧
    rangeDuration ⟨2025, 2, 15, 0, 0, 0⟩ ⟨2025, 2, 10, 0, 0, 0⟩ = none :=
  ⟨C9_amended_duration_counts.1 ⟨2025, 2, 10, 0, 0, 0⟩ ⟨2025, 2, 15, 0, 0, 0⟩
      (by decide) (by decide) (by decide) (by decide) (by decide) (by decide)
      (by decide),
   C9_amended_duration_counts.2.1 ⟨2025, 2, 15, 0, 0, 0⟩
      ⟨2025, 2, 10, 0, 0, 0⟩ (by decide)⟩

end ShadcnDateTime
